import Mathlib

/-!
Verification of the `bit_array` C library.

The repository holds two revisions of the same flexible-array bit-set:

* `src/src/BitArray.c` — embedded in namespace `BitArrayC`;
* `src/unnamed/part_000` — embedded in namespace `Part000`.

The two revisions differ only in `bitarray_fill` and `bitarray_all`;
every other function is textually identical between them.

Modelling conventions:

* `uint8_t` bytes are natural numbers below 256; wherever a C
  expression could leave the 8-bit range, the embedding applies the
  conversion explicitly (`% 256`, or a mask against 255).
* `size_t` values are natural numbers.  All claims under study use
  lengths `1 ≤ length`, far below `2^64`, where `size_t` arithmetic
  agrees with `Nat`; the single place where wrap-around at zero could
  matter (the `length - 1` in the allocation size of `bitarray_new`) is
  modelled with an explicit wrap in `Alloc.size_t_sub_one`.
* The flexible array member `data[]` is a `List Nat`; the C struct
  `BitArray` becomes the structure below.
-/

/-- The C struct `BitArray`: a `size_t length_in_bits` field followed by
the byte buffer `uint8_t data[]`. -/
structure BitArray where
  length_in_bits : Nat
  data : List Nat
deriving DecidableEq, Repr

/-- `byte_set_at` (identical in both revisions):
`UINT8_C(1) << bit_idx`, converted back to `uint8_t` on return. -/
def byte_set_at (bit_idx : Nat) : Nat :=
  (1 <<< bit_idx) % 256

/-- The 256-entry lookup table `u8_popcount_table` from `byte_popcount`
(identical in both revisions): entry `b` is the number of set bits of `b`. -/
def u8_popcount_table : List Nat :=
  [0, 1, 1, 2, 1, 2, 2, 3, 1, 2, 2, 3, 2, 3, 3, 4,
   1, 2, 2, 3, 2, 3, 3, 4, 2, 3, 3, 4, 3, 4, 4, 5,
   1, 2, 2, 3, 2, 3, 3, 4, 2, 3, 3, 4, 3, 4, 4, 5,
   2, 3, 3, 4, 3, 4, 4, 5, 3, 4, 4, 5, 4, 5, 5, 6,
   1, 2, 2, 3, 2, 3, 3, 4, 2, 3, 3, 4, 3, 4, 4, 5,
   2, 3, 3, 4, 3, 4, 4, 5, 3, 4, 4, 5, 4, 5, 5, 6,
   2, 3, 3, 4, 3, 4, 4, 5, 3, 4, 4, 5, 4, 5, 5, 6,
   3, 4, 4, 5, 4, 5, 5, 6, 4, 5, 5, 6, 5, 6, 6, 7,
   1, 2, 2, 3, 2, 3, 3, 4, 2, 3, 3, 4, 3, 4, 4, 5,
   2, 3, 3, 4, 3, 4, 4, 5, 3, 4, 4, 5, 4, 5, 5, 6,
   2, 3, 3, 4, 3, 4, 4, 5, 3, 4, 4, 5, 4, 5, 5, 6,
   3, 4, 4, 5, 4, 5, 5, 6, 4, 5, 5, 6, 5, 6, 6, 7,
   2, 3, 3, 4, 3, 4, 4, 5, 3, 4, 4, 5, 4, 5, 5, 6,
   3, 4, 4, 5, 4, 5, 5, 6, 4, 5, 5, 6, 5, 6, 6, 7,
   3, 4, 4, 5, 4, 5, 5, 6, 4, 5, 5, 6, 5, 6, 6, 7,
   4, 5, 5, 6, 5, 6, 6, 7, 5, 6, 6, 7, 6, 7, 7, 8]

/-- `byte_popcount` (identical in both revisions), in its default build
configuration (`BIT_ARRAY_USE_BUILTIN_POPCOUNT` unset): a lookup in
`u8_popcount_table`. -/
def byte_popcount (byte : Nat) : Nat :=
  u8_popcount_table.getD byte 0

/-- `byte_popcount` under `BIT_ARRAY_USE_BUILTIN_POPCOUNT`:
`__builtin_popcount(byte)` counts the set bits of the promoted 32-bit
value; a `uint8_t` argument has bits 8..31 zero, so the count ranges
over bit positions 0..7. -/
def byte_popcount_builtin (byte : Nat) : Nat :=
  (List.range 8).countP (fun k => byte.testBit k)

/-- `memset(dst, v, n)`: overwrite the first `n` bytes of the buffer
with `v` (the buffer is never shorter than `n` in the C code). -/
def memsetBytes : List Nat → Nat → Nat → List Nat
  | l, _, 0 => l
  | [], _, _ + 1 => []
  | _ :: l, v, n + 1 => v :: memsetBytes l v n

namespace BitArrayC

/-- `bitarray_capacity_in_bytes` of `src/src/BitArray.c`:
`1 + (length_in_bits - 1) / 8`. -/
def bitarray_capacity_in_bytes (ba : BitArray) : Nat :=
  1 + (ba.length_in_bits - 1) / 8

/-- `bitarray_new` of `src/src/BitArray.c` on the successful-allocation
path with `length ≥ 1` (the setting of every claim): `calloc` zero-fills
`1 + (length - 1) / 8` data bytes and the length field is stored.
Assertion policy and allocation failure are modelled in
`Alloc.bitarray_new`; the `size_t` wrap of `length - 1` at
`length = 0` is modelled there as well. -/
def bitarray_new (length : Nat) : BitArray :=
  ⟨length, List.replicate (1 + (length - 1) / 8) 0⟩

/-- `bitarray_check` of `src/src/BitArray.c`:
`ba->data[bit_idx / 8] & byte_set_at(bit_idx % 8)`, as a boolean. -/
def bitarray_check (ba : BitArray) (bit_idx : Nat) : Bool :=
  (ba.data.getD (bit_idx / 8) 0) &&& byte_set_at (bit_idx % 8) != 0

/-- `bitarray_all` of `src/src/BitArray.c`: every byte before the last
must equal `0xFF`; the last byte is checked bit by bit over the
`length_in_bits % 8` loose bits, or against `0xFF` when there are none. -/
def bitarray_all (ba : BitArray) : Bool :=
  let lastIdx := (ba.length_in_bits - 1) / 8
  let last := ba.data.getD lastIdx 0
  let loose_bits_count := ba.length_in_bits % 8
  ((ba.data.take lastIdx).all (fun b => b == 255)) &&
    (if loose_bits_count == 0 then
      last == 255
    else
      (List.range loose_bits_count).all
        (fun bit_idx => last &&& byte_set_at (bit_idx % 8) != 0))

/-- `bitarray_any` of `src/src/BitArray.c`: scan all
`bitarray_capacity_in_bytes` storage bytes for a nonzero byte. -/
def bitarray_any (ba : BitArray) : Bool :=
  (ba.data.take (bitarray_capacity_in_bytes ba)).any (fun b => b != 0)

/-- `bitarray_none` of `src/src/BitArray.c`: true iff every storage byte
is zero. -/
def bitarray_none (ba : BitArray) : Bool :=
  (ba.data.take (bitarray_capacity_in_bytes ba)).all (fun b => b == 0)

/-- `bitarray_popcount` of `src/src/BitArray.c`: sum `byte_popcount`
over all `bitarray_capacity_in_bytes` storage bytes. -/
def bitarray_popcount (ba : BitArray) : Nat :=
  (ba.data.take (bitarray_capacity_in_bytes ba)).foldl
    (fun total b => total + byte_popcount b) 0

/-- `bitarray_popcount` as compiled under
`BIT_ARRAY_USE_BUILTIN_POPCOUNT`: same loop, hardware byte popcount. -/
def bitarray_popcount_builtin (ba : BitArray) : Nat :=
  (ba.data.take (bitarray_capacity_in_bytes ba)).foldl
    (fun total b => total + byte_popcount_builtin b) 0

/-- `bitarray_length` of `src/src/BitArray.c`. -/
def bitarray_length (ba : BitArray) : Nat :=
  ba.length_in_bits

/-- `bitarray_capacity` of `src/src/BitArray.c`. -/
def bitarray_capacity (ba : BitArray) : Nat :=
  bitarray_capacity_in_bytes ba * 8

/-- `bitarray_set` of `src/src/BitArray.c`:
`ba->data[bit_idx / 8] |= byte_set_at(bit_idx % 8)`. -/
def bitarray_set (ba : BitArray) (bit_idx : Nat) : BitArray :=
  ⟨ba.length_in_bits,
   ba.data.set (bit_idx / 8)
     ((ba.data.getD (bit_idx / 8) 0) ||| byte_set_at (bit_idx % 8))⟩

/-- `bitarray_unset` of `src/src/BitArray.c`:
`ba->data[bit_idx / 8] &= ~byte_set_at(bit_idx % 8)`; the complement
of a byte value, truncated back to 8 bits, is `255 ^^^ mask`. -/
def bitarray_unset (ba : BitArray) (bit_idx : Nat) : BitArray :=
  ⟨ba.length_in_bits,
   ba.data.set (bit_idx / 8)
     ((ba.data.getD (bit_idx / 8) 0) &&& (255 ^^^ byte_set_at (bit_idx % 8)))⟩

/-- `bitarray_fill` of `src/src/BitArray.c`:
`memset(ba->data, 0xFF, bitarray_capacity_in_bytes(ba))` — note that
this writes every storage byte, padding bits included. -/
def bitarray_fill (ba : BitArray) : BitArray :=
  ⟨ba.length_in_bits, memsetBytes ba.data 255 (bitarray_capacity_in_bytes ba)⟩

/-- `bitarray_clear` of `src/src/BitArray.c`:
`memset(ba->data, 0x00, bitarray_capacity_in_bytes(ba))`. -/
def bitarray_clear (ba : BitArray) : BitArray :=
  ⟨ba.length_in_bits, memsetBytes ba.data 0 (bitarray_capacity_in_bytes ba)⟩

/-- `bitarray_flip` of `src/src/BitArray.c`:
`ba->data[bit_idx / 8] ^= byte_set_at(bit_idx % 8)`. -/
def bitarray_flip (ba : BitArray) (bit_idx : Nat) : BitArray :=
  ⟨ba.length_in_bits,
   ba.data.set (bit_idx / 8)
     ((ba.data.getD (bit_idx / 8) 0) ^^^ byte_set_at (bit_idx % 8))⟩

end BitArrayC

namespace Part000

/-- `bitarray_capacity_in_bytes` of `src/unnamed/part_000` (textually
identical to the `BitArrayC` revision). -/
def bitarray_capacity_in_bytes (ba : BitArray) : Nat :=
  1 + (ba.length_in_bits - 1) / 8

/-- `bitarray_new` of `src/unnamed/part_000` (textually identical to the
`BitArrayC` revision; see that doc comment). -/
def bitarray_new (length : Nat) : BitArray :=
  ⟨length, List.replicate (1 + (length - 1) / 8) 0⟩

/-- `bitarray_check` of `src/unnamed/part_000` (textually identical to
the `BitArrayC` revision). -/
def bitarray_check (ba : BitArray) (bit_idx : Nat) : Bool :=
  (ba.data.getD (bit_idx / 8) 0) &&& byte_set_at (bit_idx % 8) != 0

/-- `bitarray_all` of `src/unnamed/part_000`: every byte strictly before
`bitarray_last` must equal `0xFF`, and then the function returns
`(ba->length_in_bits % 8) == byte_popcount(*last)`. -/
def bitarray_all (ba : BitArray) : Bool :=
  let lastIdx := (ba.length_in_bits - 1) / 8
  ((ba.data.take lastIdx).all (fun b => b == 255)) &&
    (ba.length_in_bits % 8 == byte_popcount (ba.data.getD lastIdx 0))

/-- `bitarray_all` of `src/unnamed/part_000` as compiled under
`BIT_ARRAY_USE_BUILTIN_POPCOUNT`. -/
def bitarray_all_builtin (ba : BitArray) : Bool :=
  let lastIdx := (ba.length_in_bits - 1) / 8
  ((ba.data.take lastIdx).all (fun b => b == 255)) &&
    (ba.length_in_bits % 8 == byte_popcount_builtin (ba.data.getD lastIdx 0))

/-- `bitarray_any` of `src/unnamed/part_000` (textually identical to
the `BitArrayC` revision). -/
def bitarray_any (ba : BitArray) : Bool :=
  (ba.data.take (bitarray_capacity_in_bytes ba)).any (fun b => b != 0)

/-- `bitarray_none` of `src/unnamed/part_000` (textually identical to
the `BitArrayC` revision). -/
def bitarray_none (ba : BitArray) : Bool :=
  (ba.data.take (bitarray_capacity_in_bytes ba)).all (fun b => b == 0)

/-- `bitarray_popcount` of `src/unnamed/part_000` (textually identical
to the `BitArrayC` revision). -/
def bitarray_popcount (ba : BitArray) : Nat :=
  (ba.data.take (bitarray_capacity_in_bytes ba)).foldl
    (fun total b => total + byte_popcount b) 0

/-- `bitarray_length` of `src/unnamed/part_000`. -/
def bitarray_length (ba : BitArray) : Nat :=
  ba.length_in_bits

/-- `bitarray_capacity` of `src/unnamed/part_000`. -/
def bitarray_capacity (ba : BitArray) : Nat :=
  bitarray_capacity_in_bytes ba * 8

/-- `bitarray_set` of `src/unnamed/part_000` (textually identical to
the `BitArrayC` revision). -/
def bitarray_set (ba : BitArray) (bit_idx : Nat) : BitArray :=
  ⟨ba.length_in_bits,
   ba.data.set (bit_idx / 8)
     ((ba.data.getD (bit_idx / 8) 0) ||| byte_set_at (bit_idx % 8))⟩

/-- `bitarray_unset` of `src/unnamed/part_000` (textually identical to
the `BitArrayC` revision). -/
def bitarray_unset (ba : BitArray) (bit_idx : Nat) : BitArray :=
  ⟨ba.length_in_bits,
   ba.data.set (bit_idx / 8)
     ((ba.data.getD (bit_idx / 8) 0) &&& (255 ^^^ byte_set_at (bit_idx % 8)))⟩

/-- `bitarray_fill` of `src/unnamed/part_000`:
`memset(ba->data, 0xFF, (length_in_bits - 1) / 8)` fills every byte
before `bitarray_last`, and the last byte is written as
`byte_set_at(remaining_bits) - 1` when `remaining_bits != 0` and `0xFF`
otherwise, keeping the padding bits unset. -/
def bitarray_fill (ba : BitArray) : BitArray :=
  let lastIdx := (ba.length_in_bits - 1) / 8
  let remaining_bits := ba.length_in_bits % 8
  ⟨ba.length_in_bits,
   (memsetBytes ba.data 255 lastIdx).set lastIdx
     (if remaining_bits != 0 then byte_set_at remaining_bits - 1 else 255)⟩

/-- `bitarray_clear` of `src/unnamed/part_000` (textually identical to
the `BitArrayC` revision). -/
def bitarray_clear (ba : BitArray) : BitArray :=
  ⟨ba.length_in_bits, memsetBytes ba.data 0 (bitarray_capacity_in_bytes ba)⟩

/-- `bitarray_flip` of `src/unnamed/part_000` (textually identical to
the `BitArrayC` revision). -/
def bitarray_flip (ba : BitArray) (bit_idx : Nat) : BitArray :=
  ⟨ba.length_in_bits,
   ba.data.set (bit_idx / 8)
     ((ba.data.getD (bit_idx / 8) 0) ^^^ byte_set_at (bit_idx % 8))⟩

end Part000

/-- Result of `bitarray_new` with the assertion policy and the `calloc`
outcome made explicit. -/
inductive NewResult where
  | assertFailure : NewResult
  | null : NewResult
  | ok : BitArray → NewResult
deriving DecidableEq, Repr

namespace Alloc

/-- `size_t` subtraction `n - 1`, which wraps at zero (the claims only
use `n < 2^64`). -/
def size_t_sub_one (n : Nat) : Nat :=
  (n + (2 ^ 64 - 1)) % 2 ^ 64

/-- `bitarray_new` (identical in both revisions) with the two
environment choices explicit: `asserts` is the `BIT_ARRAY_ASSERTS`
build switch and `allocOk` is whether `calloc` succeeds.  The control
flow of the C function, in order: `assert(length)` fires before the
allocation when asserts are on and `length == 0`; `calloc` zero-fills
`1 + (length - 1) / 8` data bytes or yields a null pointer;
`assert(ba)` fires on a null pointer when asserts are on; the length
field is stored only when the pointer is non-null, and the null pointer
is returned otherwise. -/
def bitarray_new (asserts allocOk : Bool) (length : Nat) : NewResult :=
  if asserts && (length == 0) then
    .assertFailure
  else
    match (if allocOk then
             some (List.replicate (1 + size_t_sub_one length / 8) 0)
           else
             none : Option (List Nat)) with
    | none => if asserts then .assertFailure else .null
    | some buf => .ok ⟨length, buf⟩

end Alloc

/-! ## Helper lemmas -/

theorem byte_set_at_eq_pow {r : Nat} (h : r < 8) : byte_set_at r = 2 ^ r := by
  have h2 : (2 : Nat) ^ r ≤ 128 := by
    have := Nat.pow_le_pow_right (show 0 < 2 by norm_num) (show r ≤ 7 by omega)
    simpa using this
  unfold byte_set_at
  rw [Nat.shiftLeft_eq, Nat.one_mul, Nat.mod_eq_of_lt (by omega)]

theorem List.set_getD_self (l : List Nat) (i : Nat) : l.set i (l.getD i 0) = l := by
  induction l generalizing i with
  | nil => rfl
  | cons a l ih =>
    cases i with
    | zero => rfl
    | succ i => simpa using ih i

theorem List.getD_set_self (l : List Nat) {i : Nat} (h : i < l.length) (v : Nat) :
    (l.set i v).getD i 0 = v := by
  simp [List.getD_eq_getElem?_getD, List.getElem?_set_self h]

theorem List.getD_set_ne (l : List Nat) {i k : Nat} (h : i ≠ k) (v : Nat) :
    (l.set i v).getD k 0 = l.getD k 0 := by
  simp [List.getD_eq_getElem?_getD, List.getElem?_set_ne h]

theorem length_memsetBytes (l : List Nat) (v n : Nat) :
    (memsetBytes l v n).length = l.length := by
  induction l generalizing n with
  | nil => cases n <;> rfl
  | cons a l ih =>
    cases n with
    | zero => rfl
    | succ n => simpa [memsetBytes] using ih n

theorem getD_memsetBytes_zero (l : List Nat) {n k : Nat} (h : k < n) :
    (memsetBytes l 0 n).getD k 0 = 0 := by
  induction l generalizing n k with
  | nil => cases n with
    | zero => omega
    | succ n => simp [memsetBytes]
  | cons a l ih =>
    cases n with
    | zero => omega
    | succ n =>
      cases k with
      | zero => rfl
      | succ k => simpa [memsetBytes] using ih (n := n) (k := k) (by omega)

theorem testBit_255 (j : Nat) : (255 : Nat).testBit j = decide (j < 8) := by
  rw [show (255 : Nat) = 2 ^ 8 - 1 by norm_num, Nat.testBit_two_pow_sub_one]

theorem and_two_pow_eq_zero_iff (b m : Nat) :
    b &&& 2 ^ m = 0 ↔ b.testBit m = false := by
  rw [Nat.and_two_pow]
  constructor
  · intro h
    cases hb : b.testBit m with
    | false => rfl
    | true =>
      rw [hb] at h
      simp only [Bool.toNat_true, Nat.one_mul] at h
      have hpos : 0 < 2 ^ m := Nat.pos_pow_of_pos m (by norm_num)
      omega
  · intro h
    rw [h]
    simp

theorem or_two_pow_and_self (b m : Nat) : (b ||| 2 ^ m) &&& 2 ^ m ≠ 0 := by
  rw [Ne, and_two_pow_eq_zero_iff]
  simp

theorem or_two_pow_and_ne {k m : Nat} (h : k ≠ m) (b : Nat) :
    (b ||| 2 ^ m) &&& 2 ^ k = b &&& 2 ^ k := by
  rw [Nat.and_two_pow, Nat.and_two_pow]
  congr 1
  simp [Nat.testBit_or, Nat.testBit_two_pow_of_ne (fun hmk => h hmk.symm)]

theorem and_mask_and_ne {k m : Nat} (hk : k < 8) (h : k ≠ m) (b : Nat) :
    (b &&& (255 ^^^ 2 ^ m)) &&& 2 ^ k = b &&& 2 ^ k := by
  rw [Nat.and_two_pow, Nat.and_two_pow]
  congr 1
  simp [Nat.testBit_and, Nat.testBit_xor, testBit_255,
    Nat.testBit_two_pow_of_ne (fun hmk => h hmk.symm), hk]

theorem xor_two_pow_and_ne {k m : Nat} (h : k ≠ m) (b : Nat) :
    (b ^^^ 2 ^ m) &&& 2 ^ k = b &&& 2 ^ k := by
  rw [Nat.and_two_pow, Nat.and_two_pow]
  congr 1
  simp [Nat.testBit_xor, Nat.testBit_two_pow_of_ne (fun hmk => h hmk.symm)]

theorem set_then_unset_byte {b m : Nat} (hb : b < 256) (hm : m < 8)
    (h : b.testBit m = false) : (b ||| 2 ^ m) &&& (255 ^^^ 2 ^ m) = b := by
  refine Nat.eq_of_testBit_eq fun j => ?_
  by_cases hj8 : j < 8
  · by_cases hjm : j = m
    · subst hjm
      simp [Nat.testBit_and, Nat.testBit_or, Nat.testBit_xor, testBit_255,
        hj8, Nat.testBit_two_pow_self, h]
    · simp [Nat.testBit_and, Nat.testBit_or, Nat.testBit_xor, testBit_255,
        hj8, Nat.testBit_two_pow_of_ne (fun hmj => hjm hmj.symm)]
  · have hbj : b.testBit j = false :=
      Nat.testBit_lt_two_pow (by
        have : (2 : Nat) ^ 8 ≤ 2 ^ j := Nat.pow_le_pow_right (by norm_num) (by omega)
        omega)
    simp [Nat.testBit_and, Nat.testBit_or, Nat.testBit_xor, testBit_255,
      hj8, hbj, Nat.testBit_two_pow_of_ne (show m ≠ j by omega)]

theorem xor_two_pow_cancel (b m : Nat) : (b ^^^ 2 ^ m) ^^^ 2 ^ m = b := by
  rw [Nat.xor_assoc, Nat.xor_self, Nat.xor_zero]

/-! ## Claims -/

/-- Claim C1: the claim says that after `fill`, `popcount` equals
`length`, and in particular `new(1)` followed by `fill` has popcount 1.
In `src/src/BitArray.c` the `fill` writes `0xFF` over every storage
byte, padding bits included, and `popcount` sums raw bytes; on a
length-1 array the popcount right after `fill` is therefore 8, the 7
padding bits being counted, while the length is 1. -/
theorem claim1_revA_fill_popcount_counts_padding :
    BitArrayC.bitarray_popcount (BitArrayC.bitarray_fill (BitArrayC.bitarray_new 1)) = 8 ∧
    BitArrayC.bitarray_length (BitArrayC.bitarray_fill (BitArrayC.bitarray_new 1)) = 1 := by
  decide

/-- Claim C2: the claim says that after `fill`, `all` and `any` return
true, in particular for `new(8)`.  In `src/unnamed/part_000`,
`bitarray_all` ends with `(length_in_bits % 8) == byte_popcount(*last)`,
which at an exact byte multiple compares `0` against `8`: on `new(8)`
followed by `fill` every one of the 8 logical bits is set (popcount 8,
`any` true), yet `all` returns false. -/
theorem claim2_revB_all_false_after_fill_multiple_of_8 :
    Part000.bitarray_all (Part000.bitarray_fill (Part000.bitarray_new 8)) = false ∧
    Part000.bitarray_popcount (Part000.bitarray_fill (Part000.bitarray_new 8)) = 8 ∧
    Part000.bitarray_length (Part000.bitarray_fill (Part000.bitarray_new 8)) = 8 ∧
    Part000.bitarray_any (Part000.bitarray_fill (Part000.bitarray_new 8)) = true := by
  decide

/-- Claim C3: the claim says every operation, `fill` included, keeps the
storage padding bits unset.  In `src/src/BitArray.c`, `bitarray_fill`
memsets the whole capacity to `0xFF`: on a length-1 array the bit at
physical position 7 — a padding bit — reads as set immediately after
`fill`, and this padding influences `popcount` (8 instead of 1),
`any` and `none`. -/
theorem claim3_revA_fill_sets_padding_bits :
    BitArrayC.bitarray_length (BitArrayC.bitarray_fill (BitArrayC.bitarray_new 1)) = 1 ∧
    Nat.testBit ((BitArrayC.bitarray_fill (BitArrayC.bitarray_new 1)).data.getD 0 0) 7 = true := by
  decide

/-- Claim C4: the claim says `popcount` always equals the number of
in-range indices whose `check` is true.  In `src/src/BitArray.c` the
state reached by `new(1)` followed by `fill` (both in-bounds
operations) has `popcount = 8` while only index 0 is in range and set,
so the check-count is 1. -/
theorem claim4_revA_popcount_disagrees_with_check_count :
    BitArrayC.bitarray_popcount (BitArrayC.bitarray_fill (BitArrayC.bitarray_new 1)) = 8 ∧
    (List.range (BitArrayC.bitarray_length
        (BitArrayC.bitarray_fill (BitArrayC.bitarray_new 1)))).countP
      (fun i => BitArrayC.bitarray_check
        (BitArrayC.bitarray_fill (BitArrayC.bitarray_new 1)) i) = 1 := by
  decide

/-- Claim C5 counterexample: `set` followed by `unset` on the same index
does not restore the prior state when the bit was already set: starting
from `new(1)` with bit 0 set, `set(0); unset(0)` leaves bit 0 clear,
a different state. -/
theorem claim5_set_unset_counterexample :
    BitArrayC.bitarray_unset
        (BitArrayC.bitarray_set
          (BitArrayC.bitarray_set (BitArrayC.bitarray_new 1) 0) 0) 0 ≠
      BitArrayC.bitarray_set (BitArrayC.bitarray_new 1) 0 := by
  decide

/-- Claim C6: for every `length ≥ 1`, the capacity of `new(length)` is
`ceil(length/8) * 8`, hence at least `length`, below `length + 8`, and
a multiple of 8. -/
theorem claim6_capacity_of_new :
    ∀ length : Nat, 1 ≤ length →
      BitArrayC.bitarray_capacity (BitArrayC.bitarray_new length) = (length + 7) / 8 * 8 ∧
      length ≤ BitArrayC.bitarray_capacity (BitArrayC.bitarray_new length) ∧
      BitArrayC.bitarray_capacity (BitArrayC.bitarray_new length) < length + 8 ∧
      BitArrayC.bitarray_capacity (BitArrayC.bitarray_new length) % 8 = 0 := by
  intro length h
  simp only [BitArrayC.bitarray_capacity, BitArrayC.bitarray_capacity_in_bytes,
    BitArrayC.bitarray_new]
  omega

/-- Witness for claim C6 at `length = 10`. -/
theorem claim6_witness :
    1 ≤ 10 ∧
      (BitArrayC.bitarray_capacity (BitArrayC.bitarray_new 10) = (10 + 7) / 8 * 8 ∧
       10 ≤ BitArrayC.bitarray_capacity (BitArrayC.bitarray_new 10) ∧
       BitArrayC.bitarray_capacity (BitArrayC.bitarray_new 10) < 10 + 8 ∧
       BitArrayC.bitarray_capacity (BitArrayC.bitarray_new 10) % 8 = 0) :=
  ⟨by decide, claim6_capacity_of_new 10 (by decide)⟩

/-- Claim C10: the two revisions agree extensionally on every operation
other than `fill` and `all`: `new`, `check`, `set`, `unset`, `flip`,
`clear`, `any`, `none`, `popcount`, `length` and `capacity` produce
equal results and equal resulting states on equal inputs. -/
theorem claim10_revisions_agree_outside_fill_all :
    (∀ length : Nat, BitArrayC.bitarray_new length = Part000.bitarray_new length) ∧
    (∀ (ba : BitArray) (i : Nat),
      BitArrayC.bitarray_check ba i = Part000.bitarray_check ba i) ∧
    (∀ (ba : BitArray) (i : Nat),
      BitArrayC.bitarray_set ba i = Part000.bitarray_set ba i) ∧
    (∀ (ba : BitArray) (i : Nat),
      BitArrayC.bitarray_unset ba i = Part000.bitarray_unset ba i) ∧
    (∀ (ba : BitArray) (i : Nat),
      BitArrayC.bitarray_flip ba i = Part000.bitarray_flip ba i) ∧
    (∀ ba : BitArray, BitArrayC.bitarray_clear ba = Part000.bitarray_clear ba) ∧
    (∀ ba : BitArray, BitArrayC.bitarray_any ba = Part000.bitarray_any ba) ∧
    (∀ ba : BitArray, BitArrayC.bitarray_none ba = Part000.bitarray_none ba) ∧
    (∀ ba : BitArray, BitArrayC.bitarray_popcount ba = Part000.bitarray_popcount ba) ∧
    (∀ ba : BitArray, BitArrayC.bitarray_length ba = Part000.bitarray_length ba) ∧
    (∀ ba : BitArray, BitArrayC.bitarray_capacity ba = Part000.bitarray_capacity ba) :=
  ⟨fun _ => rfl, fun _ _ => rfl, fun _ _ => rfl, fun _ _ => rfl, fun _ _ => rfl,
   fun _ => rfl, fun _ => rfl, fun _ => rfl, fun _ => rfl, fun _ => rfl, fun _ => rfl⟩

/-- Claim C7: with asserts disabled, allocation failure yields the null
pointer rather than a crash; every successfully returned array is fully
initialized (length stored and buffer zeroed, so no partial state can
be observed); with asserts enabled, `new(0)` hits the length assertion
whatever the allocator would have done, i.e. before the allocation is
consulted. -/
theorem claim7_new_failure_modes :
    ∀ (asserts allocOk : Bool) (length : Nat),
      (asserts = false → allocOk = false →
        Alloc.bitarray_new asserts allocOk length = NewResult.null) ∧
      (asserts = true → length = 0 →
        Alloc.bitarray_new asserts allocOk length = NewResult.assertFailure) ∧
      (∀ ba : BitArray, Alloc.bitarray_new asserts allocOk length = NewResult.ok ba →
        ba.length_in_bits = length ∧
        ba.data = List.replicate (1 + Alloc.size_t_sub_one length / 8) 0) := by
  intro asserts allocOk length
  refine ⟨?_, ?_, ?_⟩
  · rintro rfl rfl
    simp [Alloc.bitarray_new]
  · rintro rfl rfl
    simp [Alloc.bitarray_new]
  · intro ba h
    cases asserts with
    | false =>
      cases allocOk with
      | false => simp [Alloc.bitarray_new] at h
      | true =>
        simp [Alloc.bitarray_new] at h
        subst h
        exact ⟨rfl, rfl⟩
    | true =>
      cases allocOk with
      | false => simp [Alloc.bitarray_new] at h
      | true =>
        by_cases hl : length = 0
        · subst hl
          simp [Alloc.bitarray_new] at h
        · simp [Alloc.bitarray_new, hl] at h
          subst h
          exact ⟨rfl, rfl⟩

/-- Witness for claim C7: allocation failure at length 5 with asserts
off gives null; `new(0)` with asserts on fails the assertion; a
successful `new(3)` is fully initialized. -/
theorem claim7_witness :
    Alloc.bitarray_new false false 5 = NewResult.null ∧
    Alloc.bitarray_new true false 0 = NewResult.assertFailure ∧
    ((⟨3, [0]⟩ : BitArray).length_in_bits = 3 ∧
     (⟨3, [0]⟩ : BitArray).data = List.replicate (1 + Alloc.size_t_sub_one 3 / 8) 0) :=
  ⟨(claim7_new_failure_modes false false 5).1 rfl rfl,
   (claim7_new_failure_modes true false 0).2.1 rfl rfl,
   (claim7_new_failure_modes false true 3).2.2 ⟨3, [0]⟩ (by decide)⟩

theorem getD_lt_256 (l : List Nat) (hl : ∀ b ∈ l, b < 256) (k : Nat) :
    l.getD k 0 < 256 := by
  induction l generalizing k with
  | nil => simp [List.getD]
  | cons x l ih =>
    cases k with
    | zero => exact hl x (by simp)
    | succ k => simpa using ih (fun b hb => hl b (by simp [hb])) k

/-- Claim C5 as amended: on a well-formed array (buffer sized to the
capacity, bytes in 8-bit range) and a valid index `i`: `check` is false
right after `clear` and true right after `set(i)`; `set(i)` then
`unset(i)` restores the prior state provided bit `i` was unset
beforehand (the counterexample shows the unconditional statement fails
when the bit was already set); `flip(i)` twice always restores the
prior state. -/
theorem claim5_single_bit_roundtrips :
    ∀ (ba : BitArray) (i : Nat),
      i < ba.length_in_bits →
      ba.data.length = BitArrayC.bitarray_capacity_in_bytes ba →
      (∀ b ∈ ba.data, b < 256) →
      BitArrayC.bitarray_check (BitArrayC.bitarray_clear ba) i = false ∧
      BitArrayC.bitarray_check (BitArrayC.bitarray_set ba i) i = true ∧
      (BitArrayC.bitarray_check ba i = false →
        BitArrayC.bitarray_unset (BitArrayC.bitarray_set ba i) i = ba) ∧
      BitArrayC.bitarray_flip (BitArrayC.bitarray_flip ba i) i = ba := by
  rintro ⟨len, data⟩ i hi hlen hbytes
  have hi2 : i < len := hi
  have hlen2 : data.length = 1 + (len - 1) / 8 := hlen
  have hm8 : i % 8 < 8 := Nat.mod_lt _ (by norm_num)
  have hidx : i / 8 < data.length := by rw [hlen2]; omega
  refine ⟨?_, ?_, ?_, ?_⟩
  · simp only [BitArrayC.bitarray_check, BitArrayC.bitarray_clear,
      BitArrayC.bitarray_capacity_in_bytes]
    rw [getD_memsetBytes_zero _ (show i / 8 < 1 + (len - 1) / 8 by omega)]
    simp
  · simp only [BitArrayC.bitarray_check, BitArrayC.bitarray_set]
    rw [List.getD_set_self _ hidx, byte_set_at_eq_pow hm8]
    simpa [bne_iff_ne] using or_two_pow_and_self (data.getD (i / 8) 0) (i % 8)
  · intro hz
    have hz2 : (data.getD (i / 8) 0).testBit (i % 8) = false := by
      rw [← and_two_pow_eq_zero_iff, ← byte_set_at_eq_pow hm8]
      simpa [BitArrayC.bitarray_check, bne_eq_false_iff_eq] using hz
    have hb256 : data.getD (i / 8) 0 < 256 := getD_lt_256 data hbytes (i / 8)
    simp only [BitArrayC.bitarray_unset, BitArrayC.bitarray_set]
    rw [List.getD_set_self _ (by simpa using hidx), List.set_set,
      byte_set_at_eq_pow hm8, set_then_unset_byte hb256 hm8 hz2,
      List.set_getD_self]
  · simp only [BitArrayC.bitarray_flip]
    rw [List.getD_set_self _ (by simpa using hidx), List.set_set,
      byte_set_at_eq_pow hm8, xor_two_pow_cancel, List.set_getD_self]

/-- Witness for claim C5 at the length-2 array `⟨2, [0]⟩` and index 1. -/
theorem claim5_witness :
    BitArrayC.bitarray_check (BitArrayC.bitarray_clear ⟨2, [0]⟩) 1 = false ∧
    BitArrayC.bitarray_check (BitArrayC.bitarray_set ⟨2, [0]⟩ 1) 1 = true ∧
    BitArrayC.bitarray_unset (BitArrayC.bitarray_set ⟨2, [0]⟩ 1) 1 = ⟨2, [0]⟩ ∧
    BitArrayC.bitarray_flip (BitArrayC.bitarray_flip ⟨2, [0]⟩ 1) 1 = ⟨2, [0]⟩ := by
  have h := claim5_single_bit_roundtrips ⟨2, [0]⟩ 1 (by decide) (by decide) (by decide)
  exact ⟨h.1, h.2.1, h.2.2.1 (by decide), h.2.2.2⟩

/-- Claim C8: `set`, `unset` and `flip` at a valid index `i` modify at
most the storage byte `i / 8` (every other byte is unchanged), so
`check` at every other valid index `j` is unchanged; and no operation
(`set`, `unset`, `flip`, `fill`, `clear`) changes `length` or
`capacity`. -/
theorem claim8_single_bit_frame :
    ∀ (ba : BitArray) (i j : Nat),
      i < ba.length_in_bits → j < ba.length_in_bits → j ≠ i →
      (BitArrayC.bitarray_check (BitArrayC.bitarray_set ba i) j =
          BitArrayC.bitarray_check ba j ∧
        BitArrayC.bitarray_check (BitArrayC.bitarray_unset ba i) j =
          BitArrayC.bitarray_check ba j ∧
        BitArrayC.bitarray_check (BitArrayC.bitarray_flip ba i) j =
          BitArrayC.bitarray_check ba j) ∧
      (∀ k : Nat, k ≠ i / 8 →
        (BitArrayC.bitarray_set ba i).data.getD k 0 = ba.data.getD k 0 ∧
        (BitArrayC.bitarray_unset ba i).data.getD k 0 = ba.data.getD k 0 ∧
        (BitArrayC.bitarray_flip ba i).data.getD k 0 = ba.data.getD k 0) ∧
      (BitArrayC.bitarray_length (BitArrayC.bitarray_set ba i) = BitArrayC.bitarray_length ba ∧
        BitArrayC.bitarray_length (BitArrayC.bitarray_unset ba i) = BitArrayC.bitarray_length ba ∧
        BitArrayC.bitarray_length (BitArrayC.bitarray_flip ba i) = BitArrayC.bitarray_length ba ∧
        BitArrayC.bitarray_length (BitArrayC.bitarray_fill ba) = BitArrayC.bitarray_length ba ∧
        BitArrayC.bitarray_length (BitArrayC.bitarray_clear ba) = BitArrayC.bitarray_length ba) ∧
      (BitArrayC.bitarray_capacity (BitArrayC.bitarray_set ba i) = BitArrayC.bitarray_capacity ba ∧
        BitArrayC.bitarray_capacity (BitArrayC.bitarray_unset ba i) = BitArrayC.bitarray_capacity ba ∧
        BitArrayC.bitarray_capacity (BitArrayC.bitarray_flip ba i) = BitArrayC.bitarray_capacity ba ∧
        BitArrayC.bitarray_capacity (BitArrayC.bitarray_fill ba) = BitArrayC.bitarray_capacity ba ∧
        BitArrayC.bitarray_capacity (BitArrayC.bitarray_clear ba) = BitArrayC.bitarray_capacity ba) := by
  rintro ⟨len, data⟩ i j hi hj hne
  refine ⟨?_, ?_, ⟨rfl, rfl, rfl, rfl, rfl⟩, ⟨rfl, rfl, rfl, rfl, rfl⟩⟩
  · have hjm8 : j % 8 < 8 := Nat.mod_lt _ (by norm_num)
    have him8 : i % 8 < 8 := Nat.mod_lt _ (by norm_num)
    by_cases hb : j / 8 = i / 8
    · have hbits : j % 8 ≠ i % 8 := by omega
      by_cases hlt : i / 8 < data.length
      · refine ⟨?_, ?_, ?_⟩ <;>
          simp only [BitArrayC.bitarray_check, BitArrayC.bitarray_set,
            BitArrayC.bitarray_unset, BitArrayC.bitarray_flip] <;>
          rw [hb, List.getD_set_self _ hlt, byte_set_at_eq_pow hjm8,
            byte_set_at_eq_pow him8]
        · rw [or_two_pow_and_ne hbits]
        · rw [and_mask_and_ne hjm8 hbits]
        · rw [xor_two_pow_and_ne hbits]
      · have hnoop : ∀ v : Nat, data.set (i / 8) v = data := fun v =>
          List.set_eq_of_length_le (by omega)
        refine ⟨?_, ?_, ?_⟩ <;>
          simp only [BitArrayC.bitarray_check, BitArrayC.bitarray_set,
            BitArrayC.bitarray_unset, BitArrayC.bitarray_flip, hnoop]
    · refine ⟨?_, ?_, ?_⟩ <;>
        simp only [BitArrayC.bitarray_check, BitArrayC.bitarray_set,
          BitArrayC.bitarray_unset, BitArrayC.bitarray_flip] <;>
        rw [List.getD_set_ne _ (fun hh => hb hh.symm) _]
  · intro k hk
    refine ⟨?_, ?_, ?_⟩ <;>
      simp only [BitArrayC.bitarray_set, BitArrayC.bitarray_unset,
        BitArrayC.bitarray_flip] <;>
      exact List.getD_set_ne _ (fun hh => hk hh.symm) _

/-- Witness for claim C8 at the length-10 array `⟨10, [0, 0]⟩`, touched
index 0, observed index 9, untouched byte 1. -/
theorem claim8_witness :
    (BitArrayC.bitarray_check (BitArrayC.bitarray_set ⟨10, [0, 0]⟩ 0) 9 =
        BitArrayC.bitarray_check ⟨10, [0, 0]⟩ 9 ∧
      BitArrayC.bitarray_check (BitArrayC.bitarray_unset ⟨10, [0, 0]⟩ 0) 9 =
        BitArrayC.bitarray_check ⟨10, [0, 0]⟩ 9 ∧
      BitArrayC.bitarray_check (BitArrayC.bitarray_flip ⟨10, [0, 0]⟩ 0) 9 =
        BitArrayC.bitarray_check ⟨10, [0, 0]⟩ 9) ∧
    ((BitArrayC.bitarray_set ⟨10, [0, 0]⟩ 0).data.getD 1 0 =
        (⟨10, [0, 0]⟩ : BitArray).data.getD 1 0 ∧
      (BitArrayC.bitarray_unset ⟨10, [0, 0]⟩ 0).data.getD 1 0 =
        (⟨10, [0, 0]⟩ : BitArray).data.getD 1 0 ∧
      (BitArrayC.bitarray_flip ⟨10, [0, 0]⟩ 0).data.getD 1 0 =
        (⟨10, [0, 0]⟩ : BitArray).data.getD 1 0) ∧
    BitArrayC.bitarray_length (BitArrayC.bitarray_fill ⟨10, [0, 0]⟩) =
      BitArrayC.bitarray_length ⟨10, [0, 0]⟩ ∧
    BitArrayC.bitarray_capacity (BitArrayC.bitarray_fill ⟨10, [0, 0]⟩) =
      BitArrayC.bitarray_capacity ⟨10, [0, 0]⟩ := by
  have h := claim8_single_bit_frame ⟨10, [0, 0]⟩ 0 9 (by decide) (by decide) (by decide)
  exact ⟨h.1, h.2.1 1 (by decide), h.2.2.1.2.2.2.1, h.2.2.2.2.2.2.1⟩

set_option maxRecDepth 4000 in
theorem byte_popcount_table_matches : ∀ b : Fin 256,
    byte_popcount b.val = byte_popcount_builtin b.val := by
  decide

theorem foldl_popcount_congr (l : List Nat)
    (hl : ∀ b ∈ l, byte_popcount b = byte_popcount_builtin b) :
    ∀ a : Nat, l.foldl (fun total b => total + byte_popcount b) a =
      l.foldl (fun total b => total + byte_popcount_builtin b) a := by
  induction l with
  | nil => intro a; rfl
  | cons x l ih =>
    intro a
    simp only [List.foldl_cons]
    rw [hl x (by simp)]
    exact ih (fun b hb => hl b (by simp [hb])) _

/-- Claim C9: the 256-entry lookup table and the builtin population
count agree on every byte value, so the
`BIT_ARRAY_USE_BUILTIN_POPCOUNT` build switch does not change the
result of `popcount` (either revision; their loops are identical) or
of the `part_000` revision of `all`, on any array whose bytes are in 8-bit range. -/
theorem claim9_popcount_strategies_agree :
    (∀ b : Nat, b < 256 → byte_popcount b = byte_popcount_builtin b) ∧
    (∀ ba : BitArray, (∀ b ∈ ba.data, b < 256) →
      BitArrayC.bitarray_popcount ba = BitArrayC.bitarray_popcount_builtin ba ∧
      Part000.bitarray_all ba = Part000.bitarray_all_builtin ba) := by
  have hfin : ∀ b : Nat, b < 256 → byte_popcount b = byte_popcount_builtin b :=
    fun b hb => byte_popcount_table_matches ⟨b, hb⟩
  refine ⟨hfin, ?_⟩
  intro ba hba
  constructor
  · unfold BitArrayC.bitarray_popcount BitArrayC.bitarray_popcount_builtin
    exact foldl_popcount_congr _
      (fun b hb => hfin b (hba b (List.take_subset _ _ hb))) 0
  · simp only [Part000.bitarray_all, Part000.bitarray_all_builtin]
    rw [hfin _ (getD_lt_256 _ hba _)]

/-- Witness for claim C9 at byte 7 and the array `⟨3, [5]⟩`. -/
theorem claim9_witness :
    byte_popcount 7 = byte_popcount_builtin 7 ∧
    BitArrayC.bitarray_popcount ⟨3, [5]⟩ = BitArrayC.bitarray_popcount_builtin ⟨3, [5]⟩ ∧
    Part000.bitarray_all ⟨3, [5]⟩ = Part000.bitarray_all_builtin ⟨3, [5]⟩ :=
  ⟨claim9_popcount_strategies_agree.1 7 (by decide),
   (claim9_popcount_strategies_agree.2 ⟨3, [5]⟩ (by decide)).1,
   (claim9_popcount_strategies_agree.2 ⟨3, [5]⟩ (by decide)).2⟩
